import Mathlib

/-!
Shallow embedding of the Vulkan bootstrap logic in `Source/main.cpp`
(class `VulkanTutorialApp`): physical-device selection, logical-device
queue-family resolution, and swapchain configuration negotiation.

Machine integers (`uint32_t`) are modelled as `Nat`; the only place the
width matters is the `UINT32_MAX` sentinel, kept explicit. Fallible code
(out-of-bounds reads, `throw`) is modelled with `Option` / `Except`.
-/

namespace VulkanTutorial

/-- The constant `UINT32_MAX`, the maximum of `uint32_t`, used both as the
"unassigned queue index" sentinel and as the "undefined extent" sentinel. -/
def UINT32_MAX : Nat := 4294967295

/-! Section: Data model: enums and descriptor structures queried from the driver -/

/-- The `vk::Format` values this program mentions, plus representatives for
other formats a surface may report. -/
inductive Format where
  | eUndefined
  | eB8G8R8A8Srgb
  | eB8G8R8A8Unorm
  | eR8G8B8A8Srgb
  | eR8G8B8A8Unorm
  deriving DecidableEq, Repr

/-- The `vk::ColorSpaceKHR` values relevant here: the non-linear sRGB color
space the program hard-codes, plus representatives of other color spaces. -/
inductive ColorSpaceKHR where
  | eSrgbNonlinear
  | eDisplayP3NonlinearEXT
  | eExtendedSrgbLinearEXT
  deriving DecidableEq, Repr

/-- A `vk::SurfaceFormatKHR`: a (format, color space) pair reported by the
surface. -/
structure SurfaceFormatKHR where
  format : Format
  colorSpace : ColorSpaceKHR
  deriving DecidableEq, Repr

/-- The `vk::PresentModeKHR` enumeration. -/
inductive PresentModeKHR where
  | eImmediate
  | eMailbox
  | eFifo
  | eFifoRelaxed
  deriving DecidableEq, Repr

/-- A `vk::Extent2D` with `uint32_t` components. -/
structure Extent2D where
  width : Nat
  height : Nat
  deriving DecidableEq, Repr

/-- The fields of `vk::SurfaceCapabilitiesKHR` the program reads. -/
structure SurfaceCapabilitiesKHR where
  minImageCount : Nat
  maxImageCount : Nat
  currentExtent : Extent2D
  minImageExtent : Extent2D
  maxImageExtent : Extent2D
  deriving DecidableEq, Repr

/-- The bit `VK_QUEUE_GRAPHICS_BIT` of `vk::QueueFlagBits`. -/
def QUEUE_GRAPHICS_BIT : Nat := 1

/-- The fields of `vk::QueueFamilyProperties` the program reads: the
capability bitmask. -/
structure QueueFamilyProperties where
  queueFlags : Nat
  deriving DecidableEq, Repr

/-- The test `(qfp.queueFlags & vk::QueueFlagBits::eGraphics) != 0`, the graphics test
used both by `pickPhysicalDevice` and `createLogicalDevice`. -/
def hasGraphicsFlag (qfp : QueueFamilyProperties) : Bool :=
  (qfp.queueFlags &&& QUEUE_GRAPHICS_BIT) != 0

/-! Section: Swapchain negotiation helpers (`chooseSwap*`, lines 318-355) -/

/-- The predicate inside `chooseSwapSurfaceFormat`: the preferred 8-bit BGRA
sRGB format with non-linear sRGB color space. -/
def isPreferredFormat (f : SurfaceFormatKHR) : Bool :=
  f.format == Format.eB8G8R8A8Srgb && f.colorSpace == ColorSpaceKHR.eSrgbNonlinear

/-- The preferred surface-format pair, for stating theorems. -/
def preferredSurfaceFormat : SurfaceFormatKHR :=
  { format := Format.eB8G8R8A8Srgb, colorSpace := ColorSpaceKHR.eSrgbNonlinear }

/-- Function `chooseSwapSurfaceFormat` (main.cpp:318-325): find the preferred pair,
else fall back to `availableFormats[0].format`. The source's unchecked `[0]`
read on an empty vector is the `none` branch. -/
def chooseSwapSurfaceFormat (availableFormats : List SurfaceFormatKHR) :
    Option Format :=
  match availableFormats.find? isPreferredFormat with
  | some f => some f.format
  | none => availableFormats.head?.map SurfaceFormatKHR.format

/-- Function `chooseSwapPresentMode` (main.cpp:334-337): mailbox if any supported mode
equals mailbox, else FIFO. -/
def chooseSwapPresentMode (availablePresentModes : List PresentModeKHR) :
    PresentModeKHR :=
  if availablePresentModes.any (fun value => PresentModeKHR.eMailbox == value)
  then PresentModeKHR.eMailbox
  else PresentModeKHR.eFifo

/-- The function `std::clamp` on `uint32_t`: `v < lo ? lo : (hi < v ? hi : v)`. -/
def clampU32 (v lo hi : Nat) : Nat :=
  if v < lo then lo else if hi < v then hi else v

/-- Function `chooseSwapExtent` (main.cpp:344-355): if `currentExtent.width` is not
`UINT32_MAX` return `currentExtent`, else clamp the window's pixel size
componentwise into the surface extent bounds. The window size reported by
`SDL_GetWindowSizeInPixels` is passed in as `windowWidth`, `windowHeight`. -/
def chooseSwapExtent (capabilities : SurfaceCapabilitiesKHR)
    (windowWidth windowHeight : Nat) : Extent2D :=
  if capabilities.currentExtent.width ≠ UINT32_MAX then
    capabilities.currentExtent
  else
    { width := clampU32 windowWidth
        capabilities.minImageExtent.width capabilities.maxImageExtent.width,
      height := clampU32 windowHeight
        capabilities.minImageExtent.height capabilities.maxImageExtent.height }

/-- The image-count computation of `createSwapChain` (main.cpp:290-296):
`max(3, minImageCount)`, then clamp to `maxImageCount` only when that bound
is nonzero. -/
def chosenImageCount (capabilities : SurfaceCapabilitiesKHR) : Nat :=
  let minImageCount := max 3 capabilities.minImageCount
  if capabilities.maxImageCount > 0 ∧ minImageCount > capabilities.maxImageCount
  then capabilities.maxImageCount
  else minImageCount

/-- The fields of `vk::SwapchainCreateInfoKHR` whose values are negotiated by
`createSwapChain` (main.cpp:299-312). `imageFormat` is an `Option` because
`chooseSwapSurfaceFormat` is partial on the empty format list. -/
structure SwapchainCreateInfoKHR where
  minImageCount : Nat
  imageFormat : Option Format
  imageColorSpace : ColorSpaceKHR
  imageExtent : Extent2D
  presentMode : PresentModeKHR
  deriving DecidableEq, Repr

/-- The negotiation performed by `createSwapChain` (main.cpp:279-316),
assembled from the surface queries; `imageColorSpace` is the hard-coded
`vk::ColorSpaceKHR::eSrgbNonlinear` of line 303. -/
def buildSwapChainCreateInfo (surfaceCapabilities : SurfaceCapabilitiesKHR)
    (surfaceFormats : List SurfaceFormatKHR)
    (presentModes : List PresentModeKHR)
    (windowWidth windowHeight : Nat) : SwapchainCreateInfoKHR :=
  { minImageCount := chosenImageCount surfaceCapabilities,
    imageFormat := chooseSwapSurfaceFormat surfaceFormats,
    imageColorSpace := ColorSpaceKHR.eSrgbNonlinear,
    imageExtent := chooseSwapExtent surfaceCapabilities windowWidth windowHeight,
    presentMode := chooseSwapPresentMode presentModes }

/-! Section: Logical-device queue-family scan (`createLogicalDevice`, lines 221-277) -/

/-- The loop body of the scan in `createLogicalDevice` (main.cpp:229-243).
`surfaceSupport idx` models `getSurfaceSupportKHR(idx, surface)`. Each hit
overwrites the tracked index; the loop exits early as soon as the current
family supports both surface and graphics. -/
def queueScanAux (surfaceSupport : Nat → Bool) :
    List QueueFamilyProperties → Nat → Nat → Nat → Nat × Nat
  | [], _, graphicsQueueIndex, presentQueueIndex =>
      (graphicsQueueIndex, presentQueueIndex)
  | qfp :: rest, qfpIndex, graphicsQueueIndex, presentQueueIndex =>
      let supportsGraphics := hasGraphicsFlag qfp
      let supportsSurface := surfaceSupport qfpIndex
      let g := if supportsGraphics then qfpIndex else graphicsQueueIndex
      let p := if supportsSurface then qfpIndex else presentQueueIndex
      if supportsSurface && supportsGraphics then (g, p)
      else queueScanAux surfaceSupport rest (qfpIndex + 1) g p

/-- The full scan of `createLogicalDevice`: start at index 0 with both
tracked indices at the `UINT32_MAX` sentinel. Returns
`(graphicsQueueIndex, presentQueueIndex)`. -/
def queueFamilyScan (surfaceSupport : Nat → Bool)
    (queueFamilyProperties : List QueueFamilyProperties) : Nat × Nat :=
  queueScanAux surfaceSupport queueFamilyProperties 0 UINT32_MAX UINT32_MAX

/-- The two `throw` sites of `createLogicalDevice`: "Could not find a queue
for graphics or present" (a tracked index is still `UINT32_MAX`) and "Could
not find a queue for both graphics and present." (the tracked indices
differ). Both realize the spec's `UnsupportedQueueTopology` failure. -/
inductive LogicalDeviceError where
  | missingGraphicsOrPresent
  | graphicsPresentMismatch
  deriving DecidableEq, Repr

/-- The queue-family resolution of `createLogicalDevice` (main.cpp:221-277):
run the scan, fail if either index is unassigned, fail if they differ,
otherwise create the device on that single family and return the
`(graphics, present)` queue-family indices (which coincide). -/
def createLogicalDevice (surfaceSupport : Nat → Bool)
    (queueFamilyProperties : List QueueFamilyProperties) :
    Except LogicalDeviceError (Nat × Nat) :=
  if (queueFamilyScan surfaceSupport queueFamilyProperties).1 = UINT32_MAX ∨
      (queueFamilyScan surfaceSupport queueFamilyProperties).2 = UINT32_MAX then
    .error .missingGraphicsOrPresent
  else if (queueFamilyScan surfaceSupport queueFamilyProperties).1 ≠
      (queueFamilyScan surfaceSupport queueFamilyProperties).2 then
    .error .graphicsPresentMismatch
  else
    .ok ((queueFamilyScan surfaceSupport queueFamilyProperties).1,
         (queueFamilyScan surfaceSupport queueFamilyProperties).2)

/-! Section: Physical-device selection (`pickPhysicalDevice`, lines 176-219) -/

/-- The list `_requiredDeviceExtensions` (main.cpp:56-61). -/
def requiredDeviceExtensions : List String :=
  ["VK_KHR_swapchain", "VK_KHR_spirv_1_4",
   "VK_KHR_synchronization2", "VK_KHR_create_renderpass2"]

/-- The value `VK_API_VERSION_1_4 = VK_MAKE_API_VERSION(0, 1, 4, 0)`. -/
def VK_API_VERSION_1_4 : Nat := (1 <<< 22) ||| (4 <<< 12)

/-- The read-only descriptor data `pickPhysicalDevice` queries from each
candidate: properties (API version), queue-family list, device-extension
list, and the two feature bits it checks (`dynamicRendering` of
`vk::PhysicalDeviceVulkan13Features`, `extendedDynamicState` of
`vk::PhysicalDeviceExtendedDynamicStateFeaturesEXT`). -/
structure PhysicalDeviceDescriptor where
  apiVersion : Nat
  queueFamilies : List QueueFamilyProperties
  extensions : List String
  dynamicRendering : Bool
  extendedDynamicState : Bool
  deriving DecidableEq, Repr

/-- Clause (a): `device.getProperties().apiVersion >= VK_API_VERSION_1_4`. -/
def supportsVulkanAPI (device : PhysicalDeviceDescriptor) : Bool :=
  decide (device.apiVersion ≥ VK_API_VERSION_1_4)

/-- Clause (b): some queue family advertises the graphics bit. -/
def supportsGraphics (device : PhysicalDeviceDescriptor) : Bool :=
  device.queueFamilies.any hasGraphicsFlag

/-- Clause (c): every required device extension occurs in the device's
extension list (string comparison, as `strcmp == 0` in the source). -/
def supportsAllRequiredExtensions (device : PhysicalDeviceDescriptor) : Bool :=
  requiredDeviceExtensions.all fun requiredDeviceExtension =>
    device.extensions.any fun availableDeviceExtension =>
      availableDeviceExtension == requiredDeviceExtension

/-- Clause (d): both required feature bits are enabled. -/
def supportsRequiredFeatures (device : PhysicalDeviceDescriptor) : Bool :=
  device.dynamicRendering && device.extendedDynamicState

/-- The four-clause suitability predicate of the `find_if` lambda in
`pickPhysicalDevice` (main.cpp:182-209). -/
def isDeviceSuitable (device : PhysicalDeviceDescriptor) : Bool :=
  supportsVulkanAPI device && supportsGraphics device &&
    supportsAllRequiredExtensions device && supportsRequiredFeatures device

/-- The two `throw` sites of `pickPhysicalDevice`: "failed to find GPUs with
Vulkan support!" (empty enumeration) and "failed to find a suitable GPU!"
(nonempty enumeration, no suitable candidate). -/
inductive PickDeviceError where
  | noDeviceFound
  | noSuitableDevice
  deriving DecidableEq, Repr

/-- Function `pickPhysicalDevice` (main.cpp:176-219): fail on an empty enumeration,
otherwise take the first candidate satisfying `isDeviceSuitable`, failing if
none does. -/
def pickPhysicalDevice (devices : List PhysicalDeviceDescriptor) :
    Except PickDeviceError PhysicalDeviceDescriptor :=
  if devices.isEmpty then .error .noDeviceFound
  else
    match devices.find? isDeviceSuitable with
    | some device => .ok device
    | none => .error .noSuitableDevice

/-! Section: Spec-side definitions for the refinement comparison of claim C1 -/

/-- Stated from the spec's words ("track the lowest index supporting
graphics"): the lowest index of a queue family with the graphics bit. -/
def lowestGraphicsIndex (queueFamilyProperties : List QueueFamilyProperties) :
    Option Nat :=
  queueFamilyProperties.findIdx? hasGraphicsFlag

/-- Stated from the spec's words ("the lowest index supporting presentation
to the surface"): the lowest index at which `surfaceSupport` holds, among
the family indices. -/
def lowestPresentIndex (surfaceSupport : Nat → Bool)
    (queueFamilyProperties : List QueueFamilyProperties) : Option Nat :=
  (List.range queueFamilyProperties.length).find? surfaceSupport

/-! Section: Concrete inputs used by counterexamples and witnesses -/

/-- A candidate passing every clause: API 1.4, one graphics-capable family,
all required extensions, both feature bits. -/
def goodDevice : PhysicalDeviceDescriptor :=
  { apiVersion := VK_API_VERSION_1_4,
    queueFamilies := [{ queueFlags := 1 }],
    extensions := requiredDeviceExtensions,
    dynamicRendering := true,
    extendedDynamicState := true }

/-- A candidate failing only the extension clause: identical to `goodDevice`
but missing three of the four required device extensions. -/
def failsOnlyExtensionsDevice : PhysicalDeviceDescriptor :=
  { apiVersion := VK_API_VERSION_1_4,
    queueFamilies := [{ queueFlags := 1 }],
    extensions := ["VK_KHR_swapchain"],
    dynamicRendering := true,
    extendedDynamicState := true }

/-- Family list for the C1 counterexample: indices 0 and 1 graphics-only,
index 2 present-only (no family supports both). -/
def c1Families : List QueueFamilyProperties :=
  [{ queueFlags := 1 }, { queueFlags := 1 }, { queueFlags := 0 }]

/-- Surface support for the C1 counterexample: only index 2 can present. -/
def c1SurfaceSupport : Nat → Bool := fun i => i == 2

/-- Family list for the second half of the C1 counterexample: every index
graphics-capable. -/
def c1FamiliesB : List QueueFamilyProperties :=
  [{ queueFlags := 1 }, { queueFlags := 1 }, { queueFlags := 1 }]

/-- Surface support for the second half of the C1 counterexample: indices 1
and 2 can present, so 1 and 2 both support graphics and present. -/
def c1SurfaceSupportB : Nat → Bool := fun i => i == 1 || i == 2

/-- Capability set for the C3 counterexample: `currentExtent` is
`(UINT32_MAX, 500)` — not the `(UINT32_MAX, UINT32_MAX)` sentinel, but its
width alone already equals `UINT32_MAX`. -/
def c3Caps : SurfaceCapabilitiesKHR :=
  { minImageCount := 2, maxImageCount := 8,
    currentExtent := { width := UINT32_MAX, height := 500 },
    minImageExtent := { width := 100, height := 100 },
    maxImageExtent := { width := 4096, height := 4096 } }

/-- Capability set matching the spec's extent example: sentinel current
extent, bounds min (100,100) / max (4096,4096). -/
def sentinelCaps : SurfaceCapabilitiesKHR :=
  { minImageCount := 2, maxImageCount := 8,
    currentExtent := { width := UINT32_MAX, height := UINT32_MAX },
    minImageExtent := { width := 100, height := 100 },
    maxImageExtent := { width := 4096, height := 4096 } }

/-- Capability set with an unbounded image count (`maxImageCount = 0`). -/
def unboundedCaps : SurfaceCapabilitiesKHR :=
  { minImageCount := 2, maxImageCount := 0,
    currentExtent := { width := 800, height := 600 },
    minImageExtent := { width := 1, height := 1 },
    maxImageExtent := { width := 4096, height := 4096 } }

/-! Section: Helper lemmas -/

/-- The predicate `isPreferredFormat` accepts exactly the preferred pair. -/
theorem isPreferredFormat_iff (f : SurfaceFormatKHR) :
    isPreferredFormat f = true ↔ f = preferredSurfaceFormat := by
  cases f with
  | mk fmt cs =>
    simp [isPreferredFormat, preferredSurfaceFormat, SurfaceFormatKHR.mk.injEq]

/-- If the preferred pair is absent, the find in `chooseSwapSurfaceFormat`
misses. -/
theorem find_isPreferred_eq_none {l : List SurfaceFormatKHR}
    (h : preferredSurfaceFormat ∉ l) :
    l.find? isPreferredFormat = none := by
  rw [List.find?_eq_none]
  intro x hx hpx
  exact h ((isPreferredFormat_iff x).mp hpx ▸ hx)

/-- If the preferred pair is present, the find in `chooseSwapSurfaceFormat`
returns exactly it, wherever it sits. -/
theorem find_isPreferred_eq_some {l : List SurfaceFormatKHR}
    (h : preferredSurfaceFormat ∈ l) :
    l.find? isPreferredFormat = some preferredSurfaceFormat := by
  match hf : l.find? isPreferredFormat with
  | some f =>
    rw [(isPreferredFormat_iff f).mp (List.find?_some hf)]
  | none =>
    rw [List.find?_eq_none] at hf
    exact absurd ((isPreferredFormat_iff _).mpr rfl) (hf _ h)

/-- The clamp `clampU32` lands in `[lo, hi]` whenever the bounds are ordered. -/
theorem clampU32_mem (v lo hi : Nat) (h : lo ≤ hi) :
    lo ≤ clampU32 v lo hi ∧ clampU32 v lo hi ≤ hi := by
  unfold clampU32
  split
  · omega
  · split <;> omega

/-! Section: Claim theorems -/

/-- C2: the chosen swapchain image count equals `max(3, minImageCount)` when
`maxImageCount = 0`, equals `min(max(3, minImageCount), maxImageCount)` when
`maxImageCount > 0` (hence equals `maxImageCount` when the target exceeds
it), and always lies within `[minImageCount, maxImageCount-or-unbounded]`
for a valid capability set. -/
theorem chosenImageCount_spec (caps : SurfaceCapabilitiesKHR)
    (hvalid : caps.maxImageCount = 0 ∨ caps.minImageCount ≤ caps.maxImageCount) :
    (caps.maxImageCount = 0 →
      chosenImageCount caps = max 3 caps.minImageCount) ∧
    (0 < caps.maxImageCount →
      chosenImageCount caps = min (max 3 caps.minImageCount) caps.maxImageCount) ∧
    (0 < caps.maxImageCount → caps.maxImageCount < max 3 caps.minImageCount →
      chosenImageCount caps = caps.maxImageCount) ∧
    caps.minImageCount ≤ chosenImageCount caps ∧
    (0 < caps.maxImageCount → chosenImageCount caps ≤ caps.maxImageCount) := by
  have heq : chosenImageCount caps =
      if caps.maxImageCount > 0 ∧ max 3 caps.minImageCount > caps.maxImageCount
      then caps.maxImageCount else max 3 caps.minImageCount := rfl
  rw [heq]
  rcases Nat.eq_zero_or_pos caps.maxImageCount with h0 | h0
  · rw [if_neg (by omega)]
    refine ⟨?_, ?_, ?_, ?_, ?_⟩ <;> intros <;> omega
  · by_cases h2 : max 3 caps.minImageCount > caps.maxImageCount
    · rw [if_pos ⟨h0, h2⟩]
      refine ⟨?_, ?_, ?_, ?_, ?_⟩ <;> intros <;> omega
    · rw [if_neg (by omega)]
      refine ⟨?_, ?_, ?_, ?_, ?_⟩ <;> intros <;> omega

/-- C2 witness: with `minImageCount = 2` and unbounded `maxImageCount = 0`
the chosen image count is `3 = max 3 2`. -/
theorem chosenImageCount_spec_witness :
    chosenImageCount unboundedCaps = 3 := by
  have h := chosenImageCount_spec unboundedCaps (Or.inl rfl)
  exact (h.1 rfl).trans (by decide)

/-- C8: present-mode selection returns mailbox iff mailbox occurs in the
supported list, and returns FIFO for every list not containing mailbox. -/
theorem chooseSwapPresentMode_spec (l : List PresentModeKHR) :
    (chooseSwapPresentMode l = PresentModeKHR.eMailbox ↔
      PresentModeKHR.eMailbox ∈ l) ∧
    (PresentModeKHR.eMailbox ∉ l →
      chooseSwapPresentMode l = PresentModeKHR.eFifo) := by
  have hany : (l.any fun value => PresentModeKHR.eMailbox == value) = true ↔
      PresentModeKHR.eMailbox ∈ l := by
    rw [List.any_eq_true]
    constructor
    · rintro ⟨x, hx, hbeq⟩
      rw [eq_of_beq hbeq]
      exact hx
    · intro hm
      exact ⟨_, hm, by simp⟩
  unfold chooseSwapPresentMode
  by_cases hc : (l.any fun value => PresentModeKHR.eMailbox == value) = true
  · simp [hc, hany.mp hc]
  · have hmem : PresentModeKHR.eMailbox ∉ l := fun hm => hc (hany.mpr hm)
    simp [hc, hmem]

/-- C8 witness: for the list `[FIFO, immediate]` (mailbox absent) selection
returns FIFO; for `[FIFO, mailbox]` it returns mailbox. -/
theorem chooseSwapPresentMode_spec_witness :
    chooseSwapPresentMode [PresentModeKHR.eFifo, PresentModeKHR.eImmediate] =
      PresentModeKHR.eFifo ∧
    chooseSwapPresentMode [PresentModeKHR.eFifo, PresentModeKHR.eMailbox] =
      PresentModeKHR.eMailbox :=
  ⟨(chooseSwapPresentMode_spec
      [PresentModeKHR.eFifo, PresentModeKHR.eImmediate]).2 (by decide),
   (chooseSwapPresentMode_spec
      [PresentModeKHR.eFifo, PresentModeKHR.eMailbox]).1.mpr (by decide)⟩

/-- C10: surface-format selection is total exactly on non-empty lists: any
non-empty list yields a result, and the empty list reaches the fallback's
out-of-bounds `availableFormats[0]` read, modelled as `none`. -/
theorem chooseSwapSurfaceFormat_partiality :
    (∀ l : List SurfaceFormatKHR, l ≠ [] →
      (chooseSwapSurfaceFormat l).isSome = true) ∧
    chooseSwapSurfaceFormat ([] : List SurfaceFormatKHR) = none := by
  constructor
  · intro l hne
    unfold chooseSwapSurfaceFormat
    cases hf : l.find? isPreferredFormat with
    | some f => simp
    | none =>
      cases l with
      | nil => exact absurd rfl hne
      | cons a rest => simp
  · rfl

/-- C10 witness: a singleton list yields a result. -/
theorem chooseSwapSurfaceFormat_partiality_witness :
    (chooseSwapSurfaceFormat
      [{ format := Format.eUndefined,
         colorSpace := ColorSpaceKHR.eSrgbNonlinear }]).isSome = true :=
  chooseSwapSurfaceFormat_partiality.1 _ (by decide)

/-- C4: for every non-empty supported-format list containing the preferred
(BGRA-sRGB, non-linear-sRGB) pair at any position, the selector returns that
pair's format; for every non-empty list not containing it, the selector
returns the first entry's format. -/
theorem chooseSwapSurfaceFormat_spec (l : List SurfaceFormatKHR) (hne : l ≠ []) :
    (preferredSurfaceFormat ∈ l →
      chooseSwapSurfaceFormat l = some preferredSurfaceFormat.format) ∧
    (preferredSurfaceFormat ∉ l →
      chooseSwapSurfaceFormat l = some (l.head hne).format) := by
  constructor
  · intro h
    unfold chooseSwapSurfaceFormat
    rw [find_isPreferred_eq_some h]
  · intro h
    unfold chooseSwapSurfaceFormat
    rw [find_isPreferred_eq_none h]
    cases l with
    | nil => exact absurd rfl hne
    | cons a rest => rfl

/-- C4 witness: with the preferred pair in second position the selector picks
it; with a list lacking it, the selector picks the first entry's format. -/
theorem chooseSwapSurfaceFormat_spec_witness :
    chooseSwapSurfaceFormat
      [{ format := Format.eUndefined,
         colorSpace := ColorSpaceKHR.eDisplayP3NonlinearEXT },
       preferredSurfaceFormat] = some Format.eB8G8R8A8Srgb ∧
    chooseSwapSurfaceFormat
      [{ format := Format.eR8G8B8A8Unorm,
         colorSpace := ColorSpaceKHR.eDisplayP3NonlinearEXT },
       { format := Format.eB8G8R8A8Unorm,
         colorSpace := ColorSpaceKHR.eSrgbNonlinear }] =
      some Format.eR8G8B8A8Unorm :=
  ⟨(chooseSwapSurfaceFormat_spec _ (by decide)).1 (by decide),
   (chooseSwapSurfaceFormat_spec _ (by decide)).2 (by decide)⟩

/-- C9: the swapchain create info hard-codes the non-linear sRGB color space
independently of the format chooser, and in the fallback case (preferred
pair absent) pairs the first listed entry's format with that hard-coded
color space even when the entry's own color space differs. -/
theorem swapChain_colorSpace_hardcoded :
    (∀ (caps : SurfaceCapabilitiesKHR) (fmts : List SurfaceFormatKHR)
        (modes : List PresentModeKHR) (w h : Nat),
      (buildSwapChainCreateInfo caps fmts modes w h).imageColorSpace =
        ColorSpaceKHR.eSrgbNonlinear) ∧
    (∀ (caps : SurfaceCapabilitiesKHR) (fmts : List SurfaceFormatKHR)
        (modes : List PresentModeKHR) (w h : Nat)
        (habs : preferredSurfaceFormat ∉ fmts) (hne : fmts ≠ []),
      (buildSwapChainCreateInfo caps fmts modes w h).imageFormat =
        some (fmts.head hne).format ∧
      (buildSwapChainCreateInfo caps fmts modes w h).imageColorSpace =
        ColorSpaceKHR.eSrgbNonlinear) := by
  refine ⟨fun _ _ _ _ _ => rfl, fun caps fmts modes w h habs hne => ⟨?_, rfl⟩⟩
  show chooseSwapSurfaceFormat fmts = some (fmts.head hne).format
  exact (chooseSwapSurfaceFormat_spec fmts hne).2 habs

/-- C9 witness: with a single supported entry whose own color space is
Display-P3 (not sRGB non-linear), the swapchain pairs that entry's format
with the hard-coded sRGB non-linear color space. -/
theorem swapChain_colorSpace_hardcoded_witness :
    (buildSwapChainCreateInfo unboundedCaps
        [{ format := Format.eR8G8B8A8Unorm,
           colorSpace := ColorSpaceKHR.eDisplayP3NonlinearEXT }]
        [PresentModeKHR.eFifo] 800 600).imageFormat =
      some Format.eR8G8B8A8Unorm ∧
    (buildSwapChainCreateInfo unboundedCaps
        [{ format := Format.eR8G8B8A8Unorm,
           colorSpace := ColorSpaceKHR.eDisplayP3NonlinearEXT }]
        [PresentModeKHR.eFifo] 800 600).imageColorSpace =
      ColorSpaceKHR.eSrgbNonlinear ∧
    ColorSpaceKHR.eDisplayP3NonlinearEXT ≠ ColorSpaceKHR.eSrgbNonlinear := by
  refine ⟨?_, ?_, by decide⟩
  · exact (swapChain_colorSpace_hardcoded.2 unboundedCaps _ _ 800 600
      (by decide) (by decide)).1.trans (by decide)
  · exact swapChain_colorSpace_hardcoded.1 unboundedCaps _ _ 800 600

/-- C3 counterexample: `currentExtent = (UINT32_MAX, 500)` is not the
`(UINT32_MAX, UINT32_MAX)` sentinel, yet the chosen extent is the clamped
window size `(1024, 768)`, not `currentExtent` verbatim — the code tests
only the width component against `UINT32_MAX`. -/
theorem chooseSwapExtent_nonsentinel_counterexample :
    c3Caps.currentExtent ≠
      { width := UINT32_MAX, height := UINT32_MAX } ∧
    chooseSwapExtent c3Caps 1024 768 ≠ c3Caps.currentExtent ∧
    chooseSwapExtent c3Caps 1024 768 = { width := 1024, height := 768 } := by
  decide

/-- C3 amended: the branch test is on the width component alone — whenever
`currentExtent.width = UINT32_MAX` the chosen extent is the window's pixel
size clamped componentwise into `[minImageExtent, maxImageExtent]` (in
particular for the full sentinel), and whenever `currentExtent.width ≠
UINT32_MAX` the chosen extent equals `currentExtent` verbatim. -/
theorem chooseSwapExtent_spec (caps : SurfaceCapabilitiesKHR) (w h : Nat) :
    (caps.currentExtent.width = UINT32_MAX →
      chooseSwapExtent caps w h =
        { width := clampU32 w caps.minImageExtent.width
            caps.maxImageExtent.width,
          height := clampU32 h caps.minImageExtent.height
            caps.maxImageExtent.height }) ∧
    (caps.currentExtent.width ≠ UINT32_MAX →
      chooseSwapExtent caps w h = caps.currentExtent) ∧
    (caps.currentExtent.width = UINT32_MAX →
      caps.minImageExtent.width ≤ caps.maxImageExtent.width →
      caps.minImageExtent.height ≤ caps.maxImageExtent.height →
      caps.minImageExtent.width ≤ (chooseSwapExtent caps w h).width ∧
      (chooseSwapExtent caps w h).width ≤ caps.maxImageExtent.width ∧
      caps.minImageExtent.height ≤ (chooseSwapExtent caps w h).height ∧
      (chooseSwapExtent caps w h).height ≤ caps.maxImageExtent.height) := by
  refine ⟨fun hs => ?_, fun hns => ?_, fun hs hw hh => ?_⟩
  · unfold chooseSwapExtent
    rw [if_neg (by simp [hs])]
  · unfold chooseSwapExtent
    rw [if_pos hns]
  · unfold chooseSwapExtent
    rw [if_neg (by simp [hs])]
    have h1 := clampU32_mem w caps.minImageExtent.width
      caps.maxImageExtent.width hw
    have h2 := clampU32_mem h caps.minImageExtent.height
      caps.maxImageExtent.height hh
    exact ⟨h1.1, h1.2, h2.1, h2.2⟩

/-- C3 witness (the spec's own example): sentinel current extent, window
pixel size (1024, 768), bounds (100, 100) to (4096, 4096) — the chosen
extent is (1024, 768); with window size (8000, 8000) it clamps to the max
bound. -/
theorem chooseSwapExtent_spec_witness :
    chooseSwapExtent sentinelCaps 1024 768 =
      { width := 1024, height := 768 } ∧
    chooseSwapExtent sentinelCaps 8000 8000 =
      { width := 4096, height := 4096 } := by
  constructor
  · exact ((chooseSwapExtent_spec sentinelCaps 1024 768).1 rfl).trans (by decide)
  · exact ((chooseSwapExtent_spec sentinelCaps 8000 8000).1 rfl).trans (by decide)

/-- C6: device selection fails with `noDeviceFound` exactly when the
enumeration is empty, with `noSuitableDevice` exactly when the enumeration
is nonempty but no candidate is suitable, and the two failures are distinct
values of the error type. -/
theorem pickPhysicalDevice_error_spec (devices : List PhysicalDeviceDescriptor) :
    (pickPhysicalDevice devices = .error .noDeviceFound ↔ devices = []) ∧
    (pickPhysicalDevice devices = .error .noSuitableDevice ↔
      devices ≠ [] ∧ ∀ d ∈ devices, isDeviceSuitable d = false) ∧
    PickDeviceError.noDeviceFound ≠ PickDeviceError.noSuitableDevice := by
  refine ⟨?_, ?_, by decide⟩ <;> unfold pickPhysicalDevice
  · by_cases he : devices.isEmpty
    · rw [List.isEmpty_iff] at he
      simp [he]
    · rw [List.isEmpty_iff] at he
      rw [if_neg (by simpa using he)]
      cases hf : devices.find? isDeviceSuitable with
      | some d => simp [he]
      | none => simp [he]
  · by_cases he : devices.isEmpty
    · rw [List.isEmpty_iff] at he
      subst he
      simp
    · rw [List.isEmpty_iff] at he
      rw [if_neg (by simpa using he)]
      cases hf : devices.find? isDeviceSuitable with
      | some d =>
        have hmem := List.mem_of_find?_eq_some hf
        have hsuit := List.find?_some hf
        constructor
        · intro hcontra
          exact absurd hcontra (by simp)
        · intro hall
          exact absurd (hall.2 d hmem) (by simp [hsuit])
      | none =>
        rw [List.find?_eq_none] at hf
        constructor
        · intro _
          exact ⟨he, fun d hd => by simpa using hf d hd⟩
        · intro _
          rfl

/-- C6 witness: the empty enumeration yields `noDeviceFound`; a nonempty
enumeration of one unsuitable candidate yields `noSuitableDevice`. -/
theorem pickPhysicalDevice_error_spec_witness :
    pickPhysicalDevice [] = .error .noDeviceFound ∧
    pickPhysicalDevice [failsOnlyExtensionsDevice] =
      .error .noSuitableDevice :=
  ⟨(pickPhysicalDevice_error_spec []).1.mpr rfl,
   (pickPhysicalDevice_error_spec [failsOnlyExtensionsDevice]).2.1.mpr
     ⟨by decide, by decide⟩⟩

/-- The function `List.find?` returns the first element satisfying the predicate: the
returned element sits at an index all of whose predecessors fail. -/
theorem find_eq_some_first {α : Type} (p : α → Bool) (l : List α) (a : α)
    (hfind : l.find? p = some a) :
    p a = true ∧ ∃ i, ∃ hi : i < l.length, l.get ⟨i, hi⟩ = a ∧
      ∀ j, ∀ hj : j < i, p (l.get ⟨j, hj.trans hi⟩) = false := by
  induction l with
  | nil => simp at hfind
  | cons x xs ih =>
    rw [List.find?_cons] at hfind
    cases hx : p x with
    | true =>
      rw [hx] at hfind
      have hfind' : some x = some a := hfind
      obtain rfl : x = a := by injection hfind'
      refine ⟨hx, 0, by simp, rfl, ?_⟩
      intro j hj
      omega
    | false =>
      rw [hx] at hfind
      have hfind' : xs.find? p = some a := hfind
      obtain ⟨hpa, i, hi, hget, hprev⟩ := ih hfind'
      refine ⟨hpa, i + 1, by simpa using Nat.succ_lt_succ hi, by simpa using hget, ?_⟩
      intro j hj
      match j with
      | 0 => simpa using hx
      | j' + 1 =>
        have hj' : j' < i := by omega
        simpa using hprev j' hj'

/-- C5: device selection returns the first candidate (in enumeration order)
satisfying the four-clause predicate — every earlier candidate fails the
predicate, so there is no scoring of multiple matches; and on the synthetic
list where candidate 0 fails only the extension clause and candidate 1
passes everything, candidate 1 is selected. -/
theorem pickPhysicalDevice_first_match :
    (∀ (devices : List PhysicalDeviceDescriptor)
        (d : PhysicalDeviceDescriptor),
      pickPhysicalDevice devices = .ok d →
      isDeviceSuitable d = true ∧
      ∃ i, ∃ hi : i < devices.length, devices.get ⟨i, hi⟩ = d ∧
        ∀ j, ∀ hj : j < i,
          isDeviceSuitable (devices.get ⟨j, hj.trans hi⟩) = false) ∧
    (pickPhysicalDevice [failsOnlyExtensionsDevice, goodDevice] =
        .ok goodDevice ∧
      supportsVulkanAPI failsOnlyExtensionsDevice = true ∧
      supportsGraphics failsOnlyExtensionsDevice = true ∧
      supportsRequiredFeatures failsOnlyExtensionsDevice = true ∧
      supportsAllRequiredExtensions failsOnlyExtensionsDevice = false ∧
      isDeviceSuitable goodDevice = true) := by
  constructor
  · intro devices d hpick
    unfold pickPhysicalDevice at hpick
    by_cases he : devices.isEmpty
    · rw [if_pos he] at hpick
      exact absurd hpick (by simp)
    · rw [if_neg he] at hpick
      cases hf : devices.find? isDeviceSuitable with
      | some d' =>
        rw [hf] at hpick
        obtain rfl : d' = d := by injection hpick
        exact find_eq_some_first isDeviceSuitable devices d' hf
      | none =>
        rw [hf] at hpick
        exact absurd hpick (by simp)
  · refine ⟨rfl, by decide, by decide, by decide, by decide, by decide⟩

/-- C5 witness: applying the first-match characterization to the synthetic
two-candidate list shows the selected device is suitable and every earlier
candidate is not. -/
theorem pickPhysicalDevice_first_match_witness :
    isDeviceSuitable goodDevice = true ∧
    isDeviceSuitable failsOnlyExtensionsDevice = false :=
  have h := pickPhysicalDevice_first_match.1
    [failsOnlyExtensionsDevice, goodDevice] goodDevice
    pickPhysicalDevice_first_match.2.1
  ⟨h.1, by decide⟩

/-- Scan-loop lemma: if no family before position `l₁.length` passes the
combined (surface and graphics) test and the family `q` at that position
does, the loop exits there with both tracked indices set to that position —
the suffix `l₂` is never examined. -/
theorem queueScanAux_stop (surfaceSupport : Nat → Bool)
    (l₁ : List QueueFamilyProperties) (q : QueueFamilyProperties)
    (l₂ : List QueueFamilyProperties) (idx g p : Nat)
    (hno : ∀ i, ∀ hi : i < l₁.length,
      (surfaceSupport (idx + i) && hasGraphicsFlag (l₁.get ⟨i, hi⟩)) = false)
    (hq : (surfaceSupport (idx + l₁.length) && hasGraphicsFlag q) = true) :
    queueScanAux surfaceSupport (l₁ ++ q :: l₂) idx g p =
      (idx + l₁.length, idx + l₁.length) := by
  revert hno hq
  induction l₁ generalizing idx g p with
  | nil =>
    intro hno hq
    have hq' : surfaceSupport idx = true ∧ hasGraphicsFlag q = true := by
      simpa using hq
    simp [queueScanAux, hq'.1, hq'.2]
  | cons a l₁' ih =>
    intro hno hq
    have h0 : (surfaceSupport idx && hasGraphicsFlag a) = false := by
      simpa using hno 0 (by simp)
    have hstep : queueScanAux surfaceSupport ((a :: l₁') ++ q :: l₂) idx g p =
        queueScanAux surfaceSupport (l₁' ++ q :: l₂) (idx + 1)
          (if hasGraphicsFlag a then idx else g)
          (if surfaceSupport idx then idx else p) := by
      simp [queueScanAux, h0]
    have hno' : ∀ i, ∀ hi : i < l₁'.length,
        (surfaceSupport (idx + 1 + i) &&
          hasGraphicsFlag (l₁'.get ⟨i, hi⟩)) = false := by
      intro i hi
      have h := hno (i + 1) (by simpa using Nat.succ_lt_succ hi)
      have harith : idx + (i + 1) = idx + 1 + i := by omega
      rw [harith] at h
      simpa using h
    have hq' : (surfaceSupport (idx + 1 + l₁'.length) &&
        hasGraphicsFlag q) = true := by
      have harith : idx + (a :: l₁').length = idx + 1 + l₁'.length := by
        simp
        omega
      rw [harith] at hq
      exact hq
    rw [hstep, ih (idx + 1) _ _ hno' hq']
    have harith : idx + 1 + l₁'.length = idx + (a :: l₁').length := by
      simp
      omega
    rw [harith]

/-- Scan-loop lemma: if some family passes the combined test, the loop exits
at the first such position with both tracked indices equal to it. -/
theorem queueScanAux_combined (surfaceSupport : Nat → Bool)
    (l : List QueueFamilyProperties) (idx g p : Nat)
    (hex : ∃ i, ∃ hi : i < l.length,
      (surfaceSupport (idx + i) && hasGraphicsFlag (l.get ⟨i, hi⟩)) = true) :
    ∃ j, ∃ hj : j < l.length,
      (surfaceSupport (idx + j) && hasGraphicsFlag (l.get ⟨j, hj⟩)) = true ∧
      (∀ k, ∀ hk : k < j,
        (surfaceSupport (idx + k) &&
          hasGraphicsFlag (l.get ⟨k, hk.trans hj⟩)) = false) ∧
      queueScanAux surfaceSupport l idx g p = (idx + j, idx + j) := by
  revert hex
  induction l generalizing idx g p with
  | nil =>
    rintro ⟨i, hi, -⟩
    exact absurd hi (by simp)
  | cons a rest ih =>
    rintro ⟨i, hi, hcomb⟩
    cases hcase : (surfaceSupport idx && hasGraphicsFlag a) with
    | true =>
      have hc : surfaceSupport idx = true ∧ hasGraphicsFlag a = true := by
        simpa using hcase
      refine ⟨0, by simp, by simpa using hcase, fun k hk => by omega, ?_⟩
      simp [queueScanAux, hc.1, hc.2]
    | false =>
      have hstep : queueScanAux surfaceSupport (a :: rest) idx g p =
          queueScanAux surfaceSupport rest (idx + 1)
            (if hasGraphicsFlag a then idx else g)
            (if surfaceSupport idx then idx else p) := by
        simp [queueScanAux, hcase]
      cases i with
      | zero =>
        have hcomb' : (surfaceSupport idx && hasGraphicsFlag a) = true := by
          simpa using hcomb
        rw [hcase] at hcomb'
        exact Bool.noConfusion hcomb'
      | succ i' =>
        have hex' : ∃ i, ∃ hi : i < rest.length,
            (surfaceSupport (idx + 1 + i) &&
              hasGraphicsFlag (rest.get ⟨i, hi⟩)) = true := by
          refine ⟨i', by simpa using hi, ?_⟩
          have harith : idx + 1 + i' = idx + (i' + 1) := by omega
          rw [harith]
          simpa using hcomb
        obtain ⟨j', hj', hcomb'', hmin', heq'⟩ := ih (idx + 1) _ _ hex'
        refine ⟨j' + 1, by simpa using Nat.succ_lt_succ hj', ?_, ?_, ?_⟩
        · have harith : idx + (j' + 1) = idx + 1 + j' := by omega
          rw [harith]
          simpa using hcomb''
        · intro k hk
          cases k with
          | zero => simpa using hcase
          | succ k' =>
            have harith : idx + (k' + 1) = idx + 1 + k' := by omega
            rw [harith]
            have h := hmin' k' (by omega)
            simpa using h
        · rw [hstep, heq']
          have harith : idx + 1 + j' = idx + (j' + 1) := by omega
          rw [harith]

/-- Scan-loop lemma: if no family passes the combined test, the loop runs to
completion and each tracked index ends at the *last* index satisfying its
own test (or stays at its start value when none does). -/
theorem queueScanAux_noCombined (surfaceSupport : Nat → Bool)
    (l : List QueueFamilyProperties) (idx g p : Nat)
    (hno : ∀ i, ∀ hi : i < l.length,
      (surfaceSupport (idx + i) && hasGraphicsFlag (l.get ⟨i, hi⟩)) = false) :
    ((∀ i, ∀ hi : i < l.length, hasGraphicsFlag (l.get ⟨i, hi⟩) = false) →
      (queueScanAux surfaceSupport l idx g p).1 = g) ∧
    (∀ i, ∀ hi : i < l.length, hasGraphicsFlag (l.get ⟨i, hi⟩) = true →
      ∃ j, ∃ hj : j < l.length,
        (queueScanAux surfaceSupport l idx g p).1 = idx + j ∧
        hasGraphicsFlag (l.get ⟨j, hj⟩) = true ∧ i ≤ j) ∧
    ((∀ i, ∀ hi : i < l.length, surfaceSupport (idx + i) = false) →
      (queueScanAux surfaceSupport l idx g p).2 = p) ∧
    (∀ i, ∀ hi : i < l.length, surfaceSupport (idx + i) = true →
      ∃ j, ∃ hj : j < l.length,
        (queueScanAux surfaceSupport l idx g p).2 = idx + j ∧
        surfaceSupport (idx + j) = true ∧ i ≤ j) := by
  revert hno
  induction l generalizing idx g p with
  | nil =>
    intro hno
    refine ⟨fun _ => rfl, ?_, fun _ => rfl, ?_⟩ <;>
      exact fun i hi => absurd hi (by simp)
  | cons a rest ih =>
    intro hno
    have h0 : (surfaceSupport idx && hasGraphicsFlag a) = false := by
      simpa using hno 0 (by simp)
    have hstep : queueScanAux surfaceSupport (a :: rest) idx g p =
        queueScanAux surfaceSupport rest (idx + 1)
          (if hasGraphicsFlag a then idx else g)
          (if surfaceSupport idx then idx else p) := by
      simp [queueScanAux, h0]
    have hno' : ∀ i, ∀ hi : i < rest.length,
        (surfaceSupport (idx + 1 + i) &&
          hasGraphicsFlag (rest.get ⟨i, hi⟩)) = false := by
      intro i hi
      have h := hno (i + 1) (by simpa using Nat.succ_lt_succ hi)
      have harith : idx + (i + 1) = idx + 1 + i := by omega
      rw [harith] at h
      simpa using h
    obtain ⟨ihA, ihB, ihC, ihD⟩ := ih (idx + 1)
      (if hasGraphicsFlag a then idx else g)
      (if surfaceSupport idx then idx else p) hno'
    rw [hstep]
    refine ⟨?_, ?_, ?_, ?_⟩
    · intro hall
      have ha : hasGraphicsFlag a = false := by simpa using hall 0 (by simp)
      have hrest : ∀ i, ∀ hi : i < rest.length,
          hasGraphicsFlag (rest.get ⟨i, hi⟩) = false := by
        intro i hi
        have h := hall (i + 1) (by simpa using Nat.succ_lt_succ hi)
        simpa using h
      rw [ihA hrest, if_neg (by simp [ha])]
    · intro i hi hg
      cases i with
      | zero =>
        have ha : hasGraphicsFlag a = true := by simpa using hg
        by_cases hrest : ∀ i', ∀ hi' : i' < rest.length,
            hasGraphicsFlag (rest.get ⟨i', hi'⟩) = false
        · refine ⟨0, by simp, ?_, by simpa using ha, by omega⟩
          rw [ihA hrest, if_pos ha]
          omega
        · push_neg at hrest
          obtain ⟨i', hi', hgi'⟩ := hrest
          have hgi'' : hasGraphicsFlag (rest.get ⟨i', hi'⟩) = true := by
            simpa using hgi'
          obtain ⟨j', hj', heq', hgj', hle'⟩ := ihB i' hi' hgi''
          refine ⟨j' + 1, by simpa using Nat.succ_lt_succ hj', ?_,
            by simpa using hgj', by omega⟩
          rw [heq']
          omega
      | succ i' =>
        have hi'' : i' < rest.length := by simpa using hi
        have hg' : hasGraphicsFlag (rest.get ⟨i', hi''⟩) = true := by
          simpa using hg
        obtain ⟨j', hj', heq', hgj', hle'⟩ := ihB i' hi'' hg'
        refine ⟨j' + 1, by simpa using Nat.succ_lt_succ hj', ?_,
          by simpa using hgj', by omega⟩
        rw [heq']
        omega
    · intro hall
      have ha : surfaceSupport idx = false := by simpa using hall 0 (by simp)
      have hrest : ∀ i, ∀ hi : i < rest.length,
          surfaceSupport (idx + 1 + i) = false := by
        intro i hi
        have h := hall (i + 1) (by simpa using Nat.succ_lt_succ hi)
        have harith : idx + (i + 1) = idx + 1 + i := by omega
        rwa [harith] at h
      rw [ihC hrest, if_neg (by simp [ha])]
    · intro i hi hs
      cases i with
      | zero =>
        have ha : surfaceSupport idx = true := by simpa using hs
        by_cases hrest : ∀ i', ∀ hi' : i' < rest.length,
            surfaceSupport (idx + 1 + i') = false
        · refine ⟨0, by simp, ?_, by simpa using ha, by omega⟩
          rw [ihC hrest, if_pos ha]
          omega
        · push_neg at hrest
          obtain ⟨i', hi', hsi'⟩ := hrest
          have hsi'' : surfaceSupport (idx + 1 + i') = true := by
            simpa using hsi'
          obtain ⟨j', hj', heq', hsj', hle'⟩ := ihD i' hi' hsi''
          refine ⟨j' + 1, by simpa using Nat.succ_lt_succ hj', ?_, ?_, by omega⟩
          · rw [heq']
            omega
          · have harith : idx + (j' + 1) = idx + 1 + j' := by omega
            rw [harith]
            exact hsj'
      | succ i' =>
        have hi'' : i' < rest.length := by simpa using hi
        have hs' : surfaceSupport (idx + 1 + i') = true := by
          have harith : idx + 1 + i' = idx + (i' + 1) := by omega
          rw [harith]
          exact hs
        obtain ⟨j', hj', heq', hsj', hle'⟩ := ihD i' hi'' hs'
        refine ⟨j' + 1, by simpa using Nat.succ_lt_succ hj', ?_, ?_, by omega⟩
        · rw [heq']
          omega
        · have harith : idx + (j' + 1) = idx + 1 + j' := by omega
          rw [harith]
          exact hsj'

/-- C1 counterexample, two parts. First: on the family list where indices 0
and 1 are graphics-only and index 2 is present-only (no combined family),
the scan's tracked graphics index is 1 — the most recently visited
graphics-capable index — not the lowest such index, which is 0; so the
claim's "tracking the lowest index" description is false of the code.
Second: on the family list where index 0 is graphics-only and indices 1 and
2 both support graphics and present, the scan selects index 1, so the
claim's "for every family list in which index 2 supports both and index 0
supports graphics only, the scan selects index 2" is also false as stated —
the scan stops at the first combined index. -/
theorem queueScan_not_lowest_counterexample :
    (lowestGraphicsIndex c1Families = some 0 ∧
      (queueFamilyScan c1SurfaceSupport c1Families).1 = 1 ∧
      (queueFamilyScan c1SurfaceSupport c1Families).2 = 2 ∧
      lowestPresentIndex c1SurfaceSupport c1Families = some 2 ∧
      (1 : Nat) ≠ 0) ∧
    ((c1SurfaceSupportB 2 && hasGraphicsFlag (c1FamiliesB.get ⟨2, by decide⟩))
        = true ∧
      c1SurfaceSupportB 0 = false ∧
      hasGraphicsFlag (c1FamiliesB.get ⟨0, by decide⟩) = true ∧
      queueFamilyScan c1SurfaceSupportB c1FamiliesB = (1, 1) ∧
      ((1 : Nat), (1 : Nat)) ≠ ((2 : Nat), (2 : Nat))) := by
  decide

/-- C1 amended: the scan visits queue families in index order, tracking the
most recently visited (highest-so-far) index supporting graphics and,
independently, the most recently visited index supporting presentation —
not the lowest such indices — and stops immediately at the first index
whose family supports both. Part 1: if no index before `l₁.length` passes
the combined test and the family there does, the scan returns that index
for both queues and never examines later entries; with a graphics-only
family at index 0 and a combined family at index 2 this selects index 2.
Part 2: with no combined family the scan completes, and each tracked index
ends at the last index passing its own test (`UINT32_MAX` when none does). -/
theorem queueFamilyScan_spec :
    (∀ (surfaceSupport : Nat → Bool) (l₁ : List QueueFamilyProperties)
        (q : QueueFamilyProperties) (l₂ : List QueueFamilyProperties),
      (∀ i, ∀ hi : i < l₁.length,
        (surfaceSupport i && hasGraphicsFlag (l₁.get ⟨i, hi⟩)) = false) →
      (surfaceSupport l₁.length && hasGraphicsFlag q) = true →
      queueFamilyScan surfaceSupport (l₁ ++ q :: l₂) =
        (l₁.length, l₁.length) ∧
      queueFamilyScan surfaceSupport (l₁ ++ q :: l₂) =
        queueFamilyScan surfaceSupport (l₁ ++ [q])) ∧
    (∀ (surfaceSupport : Nat → Bool) (fams : List QueueFamilyProperties),
      (∀ i, ∀ hi : i < fams.length,
        (surfaceSupport i && hasGraphicsFlag (fams.get ⟨i, hi⟩)) = false) →
      ((∀ i, ∀ hi : i < fams.length,
          hasGraphicsFlag (fams.get ⟨i, hi⟩) = false) →
        (queueFamilyScan surfaceSupport fams).1 = UINT32_MAX) ∧
      (∀ i, ∀ hi : i < fams.length,
        hasGraphicsFlag (fams.get ⟨i, hi⟩) = true →
        ∃ j, ∃ hj : j < fams.length,
          (queueFamilyScan surfaceSupport fams).1 = j ∧
          hasGraphicsFlag (fams.get ⟨j, hj⟩) = true ∧ i ≤ j) ∧
      ((∀ i, ∀ hi : i < fams.length, surfaceSupport i = false) →
        (queueFamilyScan surfaceSupport fams).2 = UINT32_MAX) ∧
      (∀ i, ∀ hi : i < fams.length, surfaceSupport i = true →
        ∃ j, ∃ hj : j < fams.length,
          (queueFamilyScan surfaceSupport fams).2 = j ∧
          surfaceSupport j = true ∧ i ≤ j)) := by
  constructor
  · intro surfaceSupport l₁ q l₂ hno hq
    have hno0 : ∀ i, ∀ hi : i < l₁.length,
        (surfaceSupport (0 + i) && hasGraphicsFlag (l₁.get ⟨i, hi⟩)) = false := by
      intro i hi
      rw [Nat.zero_add]
      exact hno i hi
    have hq0 : (surfaceSupport (0 + l₁.length) && hasGraphicsFlag q) = true := by
      rw [Nat.zero_add]
      exact hq
    have h1 := queueScanAux_stop surfaceSupport l₁ q l₂ 0
      UINT32_MAX UINT32_MAX hno0 hq0
    have h2 := queueScanAux_stop surfaceSupport l₁ q [] 0
      UINT32_MAX UINT32_MAX hno0 hq0
    rw [Nat.zero_add] at h1 h2
    exact ⟨h1, h1.trans h2.symm⟩
  · intro surfaceSupport fams hno
    have hno0 : ∀ i, ∀ hi : i < fams.length,
        (surfaceSupport (0 + i) && hasGraphicsFlag (fams.get ⟨i, hi⟩)) = false := by
      intro i hi
      rw [Nat.zero_add]
      exact hno i hi
    obtain ⟨hA, hB, hC, hD⟩ := queueScanAux_noCombined surfaceSupport fams 0
      UINT32_MAX UINT32_MAX hno0
    refine ⟨hA, ?_, ?_, ?_⟩
    · intro i hi hg
      obtain ⟨j, hj, heq, hgj, hle⟩ := hB i hi hg
      exact ⟨j, hj, by rwa [Nat.zero_add] at heq, hgj, hle⟩
    · intro hall
      exact hC fun i hi => by rw [Nat.zero_add]; exact hall i hi
    · intro i hi hs
      obtain ⟨j, hj, heq, hsj, hle⟩ := hD i hi (by rw [Nat.zero_add]; exact hs)
      exact ⟨j, hj, by rwa [Nat.zero_add] at heq,
        by rwa [Nat.zero_add] at hsj, hle⟩

/-- C1 amended witness: index 0 graphics-only, index 1 no capability, index 2
graphics-capable and present-capable — the scan selects index 2 for both
queues. -/
theorem queueFamilyScan_spec_witness :
    queueFamilyScan c1SurfaceSupport
      [{ queueFlags := 1 }, { queueFlags := 0 }, { queueFlags := 1 }] =
      (2, 2) := by
  have h := (queueFamilyScan_spec.1 c1SurfaceSupport
    [{ queueFlags := 1 }, { queueFlags := 0 }] { queueFlags := 1 } []
    (by decide) (by decide)).1
  simpa using h

/-- C7: if no single queue family supports both graphics and presentation,
logical-device creation fails (with one of the two topology errors — both
realize the spec's `UnsupportedQueueTopology`), and a logical device is only
ever created with coinciding graphics and present indices, at a family that
supports both. -/
theorem createLogicalDevice_requires_combined_family
    (surfaceSupport : Nat → Bool) (fams : List QueueFamilyProperties) :
    ((∀ i, ∀ hi : i < fams.length,
        (surfaceSupport i && hasGraphicsFlag (fams.get ⟨i, hi⟩)) = false) →
      ∃ e, createLogicalDevice surfaceSupport fams = .error e) ∧
    (∀ gIdx pIdx,
      createLogicalDevice surfaceSupport fams = .ok (gIdx, pIdx) →
      gIdx = pIdx ∧ ∃ hg : gIdx < fams.length,
        (surfaceSupport gIdx && hasGraphicsFlag (fams.get ⟨gIdx, hg⟩)) = true) := by
  have hcore : ∀ _ : (∀ i, ∀ hi : i < fams.length,
      (surfaceSupport i && hasGraphicsFlag (fams.get ⟨i, hi⟩)) = false),
      (queueFamilyScan surfaceSupport fams).1 = UINT32_MAX ∨
      (queueFamilyScan surfaceSupport fams).2 = UINT32_MAX ∨
      (queueFamilyScan surfaceSupport fams).1 ≠
        (queueFamilyScan surfaceSupport fams).2 := by
    intro hno
    by_contra hcon
    push_neg at hcon
    obtain ⟨hg1, hg2, heq⟩ := hcon
    have hno0 : ∀ i, ∀ hi : i < fams.length,
        (surfaceSupport (0 + i) && hasGraphicsFlag (fams.get ⟨i, hi⟩)) = false := by
      intro i hi
      rw [Nat.zero_add]
      exact hno i hi
    obtain ⟨hA, hB, hC, hD⟩ := queueScanAux_noCombined surfaceSupport fams 0
      UINT32_MAX UINT32_MAX hno0
    have hfold : queueScanAux surfaceSupport fams 0 UINT32_MAX UINT32_MAX =
        queueFamilyScan surfaceSupport fams := rfl
    rw [hfold] at hB hD
    by_cases hallg : ∀ i, ∀ hi : i < fams.length,
        hasGraphicsFlag (fams.get ⟨i, hi⟩) = false
    · exact hg1 (hA hallg)
    · push_neg at hallg
      obtain ⟨i, hi, hgi⟩ := hallg
      obtain ⟨j, hj, heqj, hgj, -⟩ := hB i hi (by simpa using hgi)
      by_cases halls : ∀ i, ∀ hi : i < fams.length, surfaceSupport (0 + i) = false
      · exact hg2 (hC halls)
      · push_neg at halls
        obtain ⟨i₂, hi₂, hsi₂⟩ := halls
        obtain ⟨j₂, hj₂, heqj₂, hsj₂, -⟩ := hD i₂ hi₂ (by simpa using hsi₂)
        have hjj : j = j₂ := by omega
        subst hjj
        have hgj' : hasGraphicsFlag (fams.get ⟨j, hj₂⟩) = true := hgj
        have hsj' : surfaceSupport j = true := by
          rwa [Nat.zero_add] at hsj₂
        have hx := hno j hj₂
        rw [hsj', hgj'] at hx
        simp at hx
  constructor
  · intro hno
    rcases hcore hno with h | h | h
    · exact ⟨.missingGraphicsOrPresent,
        by unfold createLogicalDevice; rw [if_pos (Or.inl h)]⟩
    · exact ⟨.missingGraphicsOrPresent,
        by unfold createLogicalDevice; rw [if_pos (Or.inr h)]⟩
    · by_cases h1 : (queueFamilyScan surfaceSupport fams).1 = UINT32_MAX ∨
          (queueFamilyScan surfaceSupport fams).2 = UINT32_MAX
      · exact ⟨.missingGraphicsOrPresent,
          by unfold createLogicalDevice; rw [if_pos h1]⟩
      · exact ⟨.graphicsPresentMismatch,
          by unfold createLogicalDevice; rw [if_neg h1, if_pos h]⟩
  · intro gIdx pIdx hok
    unfold createLogicalDevice at hok
    by_cases h1 : (queueFamilyScan surfaceSupport fams).1 = UINT32_MAX ∨
        (queueFamilyScan surfaceSupport fams).2 = UINT32_MAX
    · rw [if_pos h1] at hok
      exact absurd hok (by simp)
    · rw [if_neg h1] at hok
      by_cases h2 : (queueFamilyScan surfaceSupport fams).1 ≠
          (queueFamilyScan surfaceSupport fams).2
      · rw [if_pos h2] at hok
        exact absurd hok (by simp)
      · rw [if_neg h2] at hok
        push_neg at h2
        have hpair : ((queueFamilyScan surfaceSupport fams).1,
            (queueFamilyScan surfaceSupport fams).2) = (gIdx, pIdx) := by
          injection hok
        have hg : (queueFamilyScan surfaceSupport fams).1 = gIdx :=
          congrArg Prod.fst hpair
        have hp : (queueFamilyScan surfaceSupport fams).2 = pIdx :=
          congrArg Prod.snd hpair
        refine ⟨by omega, ?_⟩
        by_cases hex : ∃ i, ∃ hi : i < fams.length,
            (surfaceSupport (0 + i) && hasGraphicsFlag (fams.get ⟨i, hi⟩)) = true
        · obtain ⟨j, hj, hcomb, -, heqscan⟩ := queueScanAux_combined
            surfaceSupport fams 0 UINT32_MAX UINT32_MAX hex
          have hscan : queueFamilyScan surfaceSupport fams = (0 + j, 0 + j) :=
            heqscan
          have hs1 : (queueFamilyScan surfaceSupport fams).1 = j := by
            rw [hscan]
            simp
          have hgj : gIdx = j := by omega
          subst hgj
          exact ⟨hj, by simpa using hcomb⟩
        · push_neg at hex
          have hno : ∀ i, ∀ hi : i < fams.length,
              (surfaceSupport i && hasGraphicsFlag (fams.get ⟨i, hi⟩)) = false := by
            intro i hi
            have h := hex i hi
            rw [Nat.zero_add] at h
            simpa using h
          rcases hcore hno with h | h | h
          · exact absurd (Or.inl h) h1
          · exact absurd (Or.inr h) h1
          · exact absurd h2 h

/-- C7 witness: on the no-combined-family list (graphics at indices 0 and 1,
present only at index 2) logical-device creation fails. -/
theorem createLogicalDevice_requires_combined_family_witness :
    ∃ e, createLogicalDevice c1SurfaceSupport c1Families = .error e :=
  (createLogicalDevice_requires_combined_family c1SurfaceSupport c1Families).1
    (by decide)

end VulkanTutorial
